import Mathlib

/-!
Verification of the field-boundary to grid decomposition engine of the
ROOtAi farm-monitoring dashboard (files `src/static/js/main.js` and
`src/static/js/mobile.js`).

The JavaScript is shallowly embedded over exact rationals:
* a GeoJSON point `[lng, lat]` becomes a pair `(lng, lat) : ℚ × ℚ`;
* `Math.cos(Math.radians d)` (the only transcendental call) is abstracted
  as an explicit parameter `cosdeg : ℚ → ℚ`, so every statement holds for
  the actual cosine oracle as a special case;
* the hardcoded `gridSizeMeters` constants (1 in `main.js`, 5 in
  `mobile.js`) become the explicit `gridSizeMeters` argument of the
  generator, matching the spec's `GridConfig.cellSizeMeters`; each call
  site instantiates it with its constant.
-/

namespace RootAi

/-- GeoJSON point: first component is longitude (x), second latitude (y). -/
abbrev Pt : Type := ℚ × ℚ

/-- Mirror of the JS bounds object `{min, max, center}` with `lat`/`lng`
fields, produced by `getBoundsFromCoordinates`. -/
structure GeoPt where
  lat : ℚ
  lng : ℚ
deriving DecidableEq, Repr

structure Bounds where
  min : GeoPt
  max : GeoPt
  center : GeoPt
deriving DecidableEq, Repr

/-- Embedding of `getBoundsFromCoordinates(coords)` (identical in
`main.js` 747-768 and `mobile.js` 2441-2461): initialise min/max from
`coords[0]`, fold componentwise min/max over all points, center is the
midpoint of min and max.  The JS crashes on an empty array
(`coords[0][1]` throws); here the fold init defaults to `(0,0)` and the
callers guard emptiness. -/
def getBoundsFromCoordinates (coords : List Pt) : Bounds :=
  let first := coords.headD (0, 0)
  let minLat := coords.foldl (fun acc c => min acc c.2) first.2
  let maxLat := coords.foldl (fun acc c => max acc c.2) first.2
  let minLng := coords.foldl (fun acc c => min acc c.1) first.1
  let maxLng := coords.foldl (fun acc c => max acc c.1) first.1
  { min := ⟨minLat, minLng⟩
    max := ⟨maxLat, maxLng⟩
    center := ⟨(minLat + maxLat) / 2, (minLng + maxLng) / 2⟩ }

/-- Crossing condition of one loop iteration of `isPointInPolygon`
(`main.js` 793-807): `((yi > y) !== (yj > y)) && (x < (xj - xi) * (y - yi) / (yj - yi) + xi)`.
`(xi, yi)` is the current vertex, `(xj, yj)` the previous one. -/
def edgeCross (x y xi yi xj yj : ℚ) : Bool :=
  (decide (yi > y) != decide (yj > y)) &&
    decide (x < (xj - xi) * (y - yi) / (yj - yi) + xi)

/-- The `for (i = 0, j = n-1; i < n; j = i++)` loop of `isPointInPolygon`:
walk the vertex list, pairing each current vertex with the previous one
(`prev` starts at the last vertex), toggling `inside` on each crossing. -/
def pipGo (x y : ℚ) : List Pt → Pt → Bool → Bool
  | [], _, inside => inside
  | cur :: rest, prev, inside =>
      pipGo x y rest cur
        (if edgeCross x y cur.1 cur.2 prev.1 prev.2 then !inside else inside)

/-- Embedding of `isPointInPolygon(point, polygon)` from `main.js`
793-807; `point` and the vertices are `[lng, lat]`.  An empty vertex list
never enters the loop and returns `false`. -/
def isPointInPolygon (point : Pt) (polygon : List Pt) : Bool :=
  match polygon.getLast? with
  | none => false
  | some last => pipGo point.1 point.2 polygon last false

/-- Loop of the `mobile.js` 2467-2486 copy of `isPointInPolygon`, whose
points are `[lat, lng]` pairs: it reads `point[1]` as x (lng) and
`point[0]` as y (lat), and likewise `polygon[i][1]` / `polygon[i][0]`. -/
def mobilePipGo (x y : ℚ) : List (ℚ × ℚ) → (ℚ × ℚ) → Bool → Bool
  | [], _, inside => inside
  | cur :: rest, prev, inside =>
      mobilePipGo x y rest cur
        (if edgeCross x y cur.2 cur.1 prev.2 prev.1 then !inside else inside)

/-- Embedding of `isPointInPolygon(point, polygon)` from `mobile.js`
2467-2486 (`[lat, lng]` convention). -/
def mobileIsPointInPolygon (point : ℚ × ℚ) (polygon : List (ℚ × ℚ)) : Bool :=
  match polygon.getLast? with
  | none => false
  | some last => mobilePipGo point.2 point.1 polygon last false

/-- Embedding of `getPolygonCenter(geojson)` (`main.js` 812-824): the
vertex average of the ring (the closing vertex is counted like any
other).  The local JS names `sumLat`/`sumLng` are misleading — `coord[0]`
is the longitude — but the returned pair is consistently `[lng, lat]`. -/
def getPolygonCenter (coords : List Pt) : Pt :=
  let sumLat := coords.foldl (fun acc c => acc + c.1) 0
  let sumLng := coords.foldl (fun acc c => acc + c.2) 0
  (sumLat / coords.length, sumLng / coords.length)

/-- Embedding of `isPolygonWithinField(cellGeoJSON, fieldGeoJSON)`
(`main.js` 772-788): return true if any vertex of the cell ring lies in
the field ring, otherwise test whether the field's vertex-average point
lies in the cell ring.  (The source also computes `cellCenter`, which is
unused.) -/
def isPolygonWithinField (cellCoords fieldCoords : List Pt) : Bool :=
  (cellCoords.any fun coord => isPointInPolygon coord fieldCoords) ||
    isPointInPolygon (getPolygonCenter fieldCoords) cellCoords

/-- Latitude scale `latDegreePerMeter = 1 / 111320` (`main.js` 617,
`mobile.js` 2390). -/
def latDegreePerMeter : ℚ := 1 / 111320

/-- Longitude scale `lngDegreePerMeter = 1 / (111320 * Math.cos(Math.radians(lat)))`
(`main.js` 618, `mobile.js` 2391), with the cosine oracle abstracted. -/
def lngDegreePerMeter (cosdeg : ℚ → ℚ) (lat : ℚ) : ℚ :=
  1 / (111320 * cosdeg lat)

/-- Count `latCells = Math.ceil((bounds.max.lat - bounds.min.lat) / gridSizeLat)`
(`main.js` 627, `mobile.js` 2400). -/
def latCellCount (gridSizeMeters : ℚ) (b : Bounds) : ℤ :=
  ⌈(b.max.lat - b.min.lat) / (gridSizeMeters * latDegreePerMeter)⌉

/-- Count `lngCells = Math.ceil((bounds.max.lng - bounds.min.lng) / gridSizeLng)`
(`main.js` 628, `mobile.js` 2401). -/
def lngCellCount (cosdeg : ℚ → ℚ) (gridSizeMeters : ℚ) (b : Bounds) : ℤ :=
  ⌈(b.max.lng - b.min.lng) /
    (gridSizeMeters * lngDegreePerMeter cosdeg b.center.lat)⌉

/-- One cell of the candidate grid, with the loop indices `(i, j)` kept
as `row`/`col`, the two corner computations of `main.js` 632-635
(`mobile.js` 2406-2409), and the cell number `i * lngCells + j + 1`
(`main.js` 672, `mobile.js` 2424) — a pure function of the indices. -/
structure GridCell where
  number : ℤ
  row : ℕ
  col : ℕ
  lat1 : ℚ
  lng1 : ℚ
  lat2 : ℚ
  lng2 : ℚ
deriving DecidableEq, Repr

def candidateCell (b : Bounds) (gsLat gsLng : ℚ) (lngCells : ℤ)
    (i j : ℕ) : GridCell :=
  { number := (i : ℤ) * lngCells + (j : ℤ) + 1
    row := i
    col := j
    lat1 := b.min.lat + i * gsLat
    lng1 := b.min.lng + j * gsLng
    lat2 := b.min.lat + (i + 1) * gsLat
    lng2 := b.min.lng + (j + 1) * gsLng }

/-- The full candidate grid of `generateFieldGrid`: the double loop
`for i in [0, latCells) for j in [0, lngCells)` in row-major order
(row ascending, then column ascending).  A non-positive cell count runs
the loop zero times, hence `Int.toNat`. -/
def candidateCells (cosdeg : ℚ → ℚ) (gridSizeMeters : ℚ)
    (coords : List Pt) : List GridCell :=
  let b := getBoundsFromCoordinates coords
  let gsLat := gridSizeMeters * latDegreePerMeter
  let gsLng := gridSizeMeters * lngDegreePerMeter cosdeg b.center.lat
  let latCells := latCellCount gridSizeMeters b
  let lngCells := lngCellCount cosdeg gridSizeMeters b
  (List.range latCells.toNat).flatMap fun i =>
    (List.range lngCells.toNat).map fun j =>
      candidateCell b gsLat gsLng lngCells i j

/-- Ring `cellCoordsLngLat` built for a cell in `main.js` 660-666
(a closed rectangle in `[lng, lat]` order). -/
def cellRing (c : GridCell) : List Pt :=
  [(c.lng1, c.lat1), (c.lng1, c.lat2), (c.lng2, c.lat2),
   (c.lng2, c.lat1), (c.lng1, c.lat1)]

/-- Membership test of `main.js` 668: `isPolygonWithinField(cellGeoJSON, geojson)`. -/
def mainCellIncluded (coords : List Pt) (c : GridCell) : Bool :=
  isPolygonWithinField (cellRing c) coords

/-- Membership test of `mobile.js` 2411-2414: ray-cast the cell center
against the ring.  The center is
`L.polygon([[lat1,lng1],[lat2,lng1],[lat2,lng2],[lat1,lng2]]).getBounds().getCenter()`,
i.e. the midpoint of the rectangle's bounding box, which for these four
corners is the componentwise midpoint; the ring is passed re-ordered to
`[lat, lng]` by `coords.map(c => [c[1], c[0]])`. -/
def mobileCellIncluded (coords : List Pt) (c : GridCell) : Bool :=
  mobileIsPointInPolygon ((c.lat1 + c.lat2) / 2, (c.lng1 + c.lng2) / 2)
    (coords.map fun p => (p.2, p.1))

/-- Embedding of `generateFieldGrid(geojson)` from `main.js` 607-689:
guard, bounds, candidate double loop, keep exactly the cells passing
`isPolygonWithinField` (cells failing the test are never pushed).
The `main.js` call site fixes `gridSizeMeters = 1`.  `none` models the
`return null` guard (and the crash on an empty ring). -/
def generateFieldGridMain (cosdeg : ℚ → ℚ) (gridSizeMeters : ℚ)
    (coords : List Pt) : Option (List GridCell) :=
  match coords with
  | [] => none
  | _ :: _ =>
      some ((candidateCells cosdeg gridSizeMeters coords).filter fun c =>
        mainCellIncluded coords c)

/-- Embedding of `generateFieldGrid(geojson)` from `mobile.js` 2380-2438:
identical candidate grid and numbering, but membership is the ray-cast of
the cell center.  The `mobile.js` call site fixes `gridSizeMeters = 5`. -/
def generateFieldGridMobile (cosdeg : ℚ → ℚ) (gridSizeMeters : ℚ)
    (coords : List Pt) : Option (List GridCell) :=
  match coords with
  | [] => none
  | _ :: _ =>
      some ((candidateCells cosdeg gridSizeMeters coords).filter fun c =>
        mobileCellIncluded coords c)

/-- Identity formula of the spec's CellRegistry:
`identity(row, col) = row * colCount + col + 1`. -/
def cellIdentity (colCount : ℤ) (row col : ℕ) : ℤ :=
  (row : ℤ) * colCount + (col : ℤ) + 1

/-! Status-overlay engine (`updateGridStylesFromMapping`, `main.js`
701-719, and `ingestGridDataFromRTDB`, `main.js` 722-742). -/

/-- The status strings assigned by `ingestGridDataFromRTDB`. -/
inductive CellStatus where
  | ok
  | warn
  | critical
deriving DecidableEq, Repr

/-- The Leaflet layer style fields touched by the overlay code, with the
initial values given at cell creation (`main.js` 647-654). -/
structure LayerStyle where
  color : String
  weight : ℚ
  opacity : ℚ
  fillColor : String
  fillOpacity : ℚ
deriving DecidableEq, Repr

/-- Partial style passed to `layer.setStyle({...})`: absent fields keep
their current value. -/
structure StylePatch where
  color : Option String := none
  weight : Option ℚ := none
  opacity : Option ℚ := none
  fillColor : Option String := none
  fillOpacity : Option ℚ := none
deriving DecidableEq, Repr

/-- Leaflet `setStyle` semantics: merge the patch into the current style,
field by field. -/
def setStyle (s : LayerStyle) (p : StylePatch) : LayerStyle :=
  { color := p.color.getD s.color
    weight := p.weight.getD s.weight
    opacity := p.opacity.getD s.opacity
    fillColor := p.fillColor.getD s.fillColor
    fillOpacity := p.fillOpacity.getD s.fillOpacity }

/-- Style of a grid cell at creation (`main.js` 647-654):
`color: '#94a3b8', weight: 0.6, opacity: 0.7, fillColor: '#000000', fillOpacity: 0.0`. -/
def initialCellStyle : LayerStyle :=
  { color := "#94a3b8", weight := 6/10, opacity := 7/10
    fillColor := "#000000", fillOpacity := 0 }

/-- Entry of the per-identity mapping built by `ingestGridDataFromRTDB`:
`{ status, value }`.  `value = none` models the `NaN` produced by
`Number(...)` on a non-numeric or missing reading. -/
structure CellReading where
  status : CellStatus
  value : Option ℚ
deriving DecidableEq, Repr

/-- Status decision of `ingestGridDataFromRTDB` (`main.js` 729-735):
`status` starts as `'ok'` and the thresholds run only under
`!isNaN(moisture)`; a `NaN` (non-numeric) reading therefore keeps `'ok'`. -/
def statusForMoisture : Option ℚ → CellStatus
  | some m => if m < 30 then .critical else if m < 40 then .warn else .ok
  | none => .ok

/-- Embedding of `ingestGridDataFromRTDB(snapshot)` (`main.js` 722-742):
build the identity-to-reading mapping; keys are already numeric here
(`Number(key)` in the source). -/
def ingestGridDataFromRTDB (cells : List (ℤ × Option ℚ)) :
    List (ℤ × CellReading) :=
  cells.map fun e => (e.1, ⟨statusForMoisture e.2, e.2⟩)

/-- Lookup `mapping[number]` (first entry with the key). -/
def lookupReading (mapping : List (ℤ × CellReading)) (n : ℤ) :
    Option CellReading :=
  (mapping.find? fun e => e.1 == n).map fun e => e.2

/-- Style patch chosen by `updateGridStylesFromMapping` (`main.js`
704-718) for one cell: the no-entry default, or the per-status patch. -/
def patchForReading : Option CellReading → StylePatch
  | none => { fillOpacity := some 0, color := some "#94a3b8" }
  | some m =>
    match m.status with
    | .critical =>
        { fillColor := some "#ef4444", fillOpacity := some (35/100)
          color := some "#b91c1c", weight := some (12/10) }
    | .warn =>
        { fillColor := some "#f59e0b", fillOpacity := some (25/100)
          color := some "#b45309", weight := some 1 }
    | .ok =>
        { fillColor := some "#22c55e", fillOpacity := some (15/100)
          color := some "#15803d", weight := some (8/10) }

/-- Embedding of `updateGridStylesFromMapping(mapping)` (`main.js`
701-719): restyle every registered cell `{number, layer}` according to
`mapping[number]`; geometry and numbers are untouched. -/
def updateGridStylesFromMapping (mapping : List (ℤ × CellReading))
    (gridCells : List (ℤ × LayerStyle)) : List (ℤ × LayerStyle) :=
  gridCells.map fun cell =>
    (cell.1, setStyle cell.2 (patchForReading (lookupReading mapping cell.1)))

/-! Helper lemmas about the candidate grid. -/

theorem mem_candidateCells {cosdeg : ℚ → ℚ} {gm : ℚ} {coords : List Pt}
    {c : GridCell} (hc : c ∈ candidateCells cosdeg gm coords) :
    ∃ i j,
      i < (latCellCount gm (getBoundsFromCoordinates coords)).toNat ∧
      j < (lngCellCount cosdeg gm (getBoundsFromCoordinates coords)).toNat ∧
      c = candidateCell (getBoundsFromCoordinates coords)
            (gm * latDegreePerMeter)
            (gm * lngDegreePerMeter cosdeg
              (getBoundsFromCoordinates coords).center.lat)
            (lngCellCount cosdeg gm (getBoundsFromCoordinates coords)) i j := by
  simp only [candidateCells, List.mem_flatMap, List.mem_map,
    List.mem_range] at hc
  obtain ⟨i, hi, j, hj, rfl⟩ := hc
  exact ⟨i, j, hi, hj, rfl⟩

theorem number_eq_cellIdentity {cosdeg : ℚ → ℚ} {gm : ℚ} {coords : List Pt}
    {c : GridCell} (hc : c ∈ candidateCells cosdeg gm coords) :
    c.number =
      cellIdentity (lngCellCount cosdeg gm (getBoundsFromCoordinates coords))
        c.row c.col := by
  obtain ⟨i, j, -, -, rfl⟩ := mem_candidateCells hc
  simp [candidateCell, cellIdentity]

theorem mem_of_generate {cosdeg : ℚ → ℚ} {gm : ℚ} {coords : List Pt}
    {cells : List GridCell} {c : GridCell}
    (h : generateFieldGridMain cosdeg gm coords = some cells ∨
         generateFieldGridMobile cosdeg gm coords = some cells)
    (hc : c ∈ cells) : c ∈ candidateCells cosdeg gm coords := by
  rcases h with h | h <;>
  · cases coords with
    | nil => simp [generateFieldGridMain, generateFieldGridMobile] at h
    | cons a t =>
        simp only [generateFieldGridMain, generateFieldGridMobile,
          Option.some_inj] at h
        subst h
        exact (List.mem_filter.mp hc).1

/-- Standard fixture ring: the unit square `[(0,0),(1,0),(1,1),(0,1),(0,0)]`
in `[lng, lat]` order. -/
def unitSquareRing : List Pt := [(0,0),(1,0),(1,1),(0,1),(0,0)]

/-- Fixture ring with the same bounding box as `unitSquareRing` but a
different boundary: the triangle `[(0,0),(1,0),(1,1),(0,0)]`. -/
def triangleRing : List Pt := [(0,0),(1,0),(1,1),(0,0)]

/-- Constant cosine oracle used in concrete instances. -/
def cosOne : ℚ → ℚ := fun _ => 1

/-- The single cell of the one-cell grids below. -/
def sqCell : GridCell := ⟨1, 0, 0, 0, 0, 1, 1⟩

theorem candidates_sq :
    candidateCells cosOne 111320 unitSquareRing = [sqCell] := by
  simp [candidateCells, getBoundsFromCoordinates, unitSquareRing,
    latCellCount, lngCellCount, latDegreePerMeter, lngDegreePerMeter,
    cosOne, candidateCell, List.range_succ, sqCell]

theorem candidates_tri :
    candidateCells cosOne 111320 triangleRing = [sqCell] := by
  simp [candidateCells, getBoundsFromCoordinates, triangleRing,
    latCellCount, lngCellCount, latDegreePerMeter, lngDegreePerMeter,
    cosOne, candidateCell, List.range_succ, sqCell]

theorem gen_sq :
    generateFieldGridMain cosOne 111320 unitSquareRing = some [sqCell] := by
  rw [show unitSquareRing = (0,0) :: [((1:ℚ),(0:ℚ)),(1,1),(0,1),(0,0)] from rfl]
  rw [generateFieldGridMain]
  rw [show ((0:ℚ),(0:ℚ)) :: [((1:ℚ),(0:ℚ)),(1,1),(0,1),(0,0)] = unitSquareRing from rfl]
  rw [candidates_sq]
  simp [mainCellIncluded, isPolygonWithinField, cellRing, isPointInPolygon,
    pipGo, edgeCross, getPolygonCenter, unitSquareRing, sqCell]

theorem gen_tri :
    generateFieldGridMain cosOne 111320 triangleRing = some [sqCell] := by
  rw [show triangleRing = (0,0) :: [((1:ℚ),(0:ℚ)),(1,1),(0,0)] from rfl]
  rw [generateFieldGridMain]
  rw [show ((0:ℚ),(0:ℚ)) :: [((1:ℚ),(0:ℚ)),(1,1),(0,0)] = triangleRing from rfl]
  rw [candidates_tri]
  simp [mainCellIncluded, isPolygonWithinField, cellRing, isPointInPolygon,
    pipGo, edgeCross, getPolygonCenter, triangleRing, sqCell]

theorem bounds_sq_tri :
    getBoundsFromCoordinates unitSquareRing =
      getBoundsFromCoordinates triangleRing := by
  simp [getBoundsFromCoordinates, unitSquareRing, triangleRing]

/-- C1: the identity assigned to an included cell is determined by its
(row, col) indices and the column count derived from the bounding box and
config alone; two rings with equal bounding boxes (under either
deployment profile for each) give every cell surviving in both runs at
the same (row, col) the same identity. -/
theorem identity_stable_across_rings
    (cosdeg : ℚ → ℚ) (gm : ℚ) (r1 r2 : List Pt)
    (hb : getBoundsFromCoordinates r1 = getBoundsFromCoordinates r2)
    (cells1 cells2 : List GridCell)
    (e1 : generateFieldGridMain cosdeg gm r1 = some cells1 ∨
          generateFieldGridMobile cosdeg gm r1 = some cells1)
    (e2 : generateFieldGridMain cosdeg gm r2 = some cells2 ∨
          generateFieldGridMobile cosdeg gm r2 = some cells2)
    (c1 c2 : GridCell) (m1 : c1 ∈ cells1) (m2 : c2 ∈ cells2)
    (hrow : c1.row = c2.row) (hcol : c1.col = c2.col) :
    c1.number = c2.number := by
  have h1 := number_eq_cellIdentity (mem_of_generate e1 m1)
  have h2 := number_eq_cellIdentity (mem_of_generate e2 m2)
  rw [h1, h2, hb, hrow, hcol]

/-- Closed instance of `identity_stable_across_rings`: the unit square and
a triangle with the same bounding box, one-cell grid, equal identities. -/
theorem identity_stable_across_rings_witness : sqCell.number = sqCell.number :=
  identity_stable_across_rings cosOne 111320 unitSquareRing triangleRing
    bounds_sq_tri [sqCell] [sqCell]
    (Or.inl gen_sq) (Or.inl gen_tri)
    sqCell sqCell (by simp) (by simp) rfl rfl

/-- C2: every included cell's number is `row * colCount + col + 1` with
`colCount` the full candidate-grid column count, and this identity is
strictly increasing in row-major order:
`identity(row, col) < identity(row, col+1) < identity(row+1, 0)`. -/
theorem identity_formula_row_major :
    (∀ (cosdeg : ℚ → ℚ) (gm : ℚ) (coords : List Pt)
       (cells : List GridCell),
       (generateFieldGridMain cosdeg gm coords = some cells ∨
        generateFieldGridMobile cosdeg gm coords = some cells) →
       ∀ c ∈ cells,
         c.number =
           cellIdentity
             (lngCellCount cosdeg gm (getBoundsFromCoordinates coords))
             c.row c.col) ∧
    (∀ (colCount : ℤ) (row col : ℕ), (col : ℤ) + 1 < colCount →
       cellIdentity colCount row col < cellIdentity colCount row (col + 1) ∧
       cellIdentity colCount row (col + 1) < cellIdentity colCount (row + 1) 0) := by
  constructor
  · intro cosdeg gm coords cells he c hc
    exact number_eq_cellIdentity (mem_of_generate he hc)
  · intro colCount row col hcol
    unfold cellIdentity
    push_cast
    constructor
    · linarith
    · nlinarith

/-- Closed instance of `identity_formula_row_major`: the one-cell grid of
the unit square, and the identity ordering at `colCount = 10`. -/
theorem identity_formula_row_major_witness :
    (∀ c ∈ [sqCell],
       c.number =
         cellIdentity
           (lngCellCount cosOne 111320
             (getBoundsFromCoordinates unitSquareRing)) c.row c.col) ∧
    (cellIdentity 10 2 3 < cellIdentity 10 2 4 ∧
     cellIdentity 10 2 4 < cellIdentity 10 3 0) :=
  ⟨identity_formula_row_major.1 cosOne 111320 unitSquareRing
      [sqCell] (Or.inl gen_sq),
   identity_formula_row_major.2 10 2 3 (by norm_num)⟩

/-- C6: the grid uses the constant latitude scale `1 / 111320` degrees
per meter and longitude scale `1 / (111320 * cos(radians refLat))` with
`refLat` the bounding-box center latitude: every candidate cell spans
`gridSizeMeters` times these scales in each axis. -/
theorem conversion_scale_factors
    (cosdeg : ℚ → ℚ) (gm : ℚ) (coords : List Pt) (c : GridCell)
    (hc : c ∈ candidateCells cosdeg gm coords) :
    latDegreePerMeter = 1 / 111320 ∧
    lngDegreePerMeter cosdeg (getBoundsFromCoordinates coords).center.lat =
      1 / (111320 * cosdeg (getBoundsFromCoordinates coords).center.lat) ∧
    c.lat2 - c.lat1 = gm * (1 / 111320) ∧
    c.lng2 - c.lng1 =
      gm * (1 / (111320 *
        cosdeg (getBoundsFromCoordinates coords).center.lat)) := by
  obtain ⟨i, j, -, -, rfl⟩ := mem_candidateCells hc
  refine ⟨rfl, rfl, ?_, ?_⟩ <;>
  · simp only [candidateCell, latDegreePerMeter, lngDegreePerMeter]
    ring

/-- Closed instance of `conversion_scale_factors` at the unit square. -/
theorem conversion_scale_factors_witness :
    latDegreePerMeter = 1 / 111320 ∧
    lngDegreePerMeter cosOne
        (getBoundsFromCoordinates unitSquareRing).center.lat =
      1 / (111320 *
        cosOne (getBoundsFromCoordinates unitSquareRing).center.lat) ∧
    sqCell.lat2 - sqCell.lat1 = 111320 * (1 / 111320) ∧
    sqCell.lng2 - sqCell.lng1 =
      111320 * (1 / (111320 *
        cosOne (getBoundsFromCoordinates unitSquareRing).center.lat)) :=
  conversion_scale_factors cosOne 111320 unitSquareRing
    sqCell (by rw [candidates_sq]; simp)

theorem getD_getD {α : Type} (o : Option α) (a : α) :
    o.getD (o.getD a) = o.getD a := by cases o <;> rfl

theorem setStyle_idem (s : LayerStyle) (p : StylePatch) :
    setStyle (setStyle s p) p = setStyle s p := by
  simp [setStyle, getD_getD]

/-- C8: the status overlay is idempotent — applying the same mapping
twice to the registered cells produces exactly the same styles as
applying it once. -/
theorem overlay_idempotent (mapping : List (ℤ × CellReading))
    (gridCells : List (ℤ × LayerStyle)) :
    updateGridStylesFromMapping mapping
        (updateGridStylesFromMapping mapping gridCells) =
      updateGridStylesFromMapping mapping gridCells := by
  unfold updateGridStylesFromMapping
  rw [List.map_map]
  refine List.map_congr_left fun cell _ => ?_
  simp [Function.comp, setStyle_idem]

/-! Claim C4: degenerate (all-points-equal) rings. -/

theorem foldl_min_snd (l : List Pt) (a : ℚ) (h : ∀ p ∈ l, p.2 = a) :
    l.foldl (fun acc c => min acc c.2) a = a := by
  induction l with
  | nil => rfl
  | cons p t ih =>
      simp only [List.foldl_cons, h p (List.mem_cons_self p t), min_self]
      exact ih fun x hx => h x (List.mem_cons_of_mem p hx)

theorem foldl_max_snd (l : List Pt) (a : ℚ) (h : ∀ p ∈ l, p.2 = a) :
    l.foldl (fun acc c => max acc c.2) a = a := by
  induction l with
  | nil => rfl
  | cons p t ih =>
      simp only [List.foldl_cons, h p (List.mem_cons_self p t), max_self]
      exact ih fun x hx => h x (List.mem_cons_of_mem p hx)

theorem foldl_min_fst (l : List Pt) (a : ℚ) (h : ∀ p ∈ l, p.1 = a) :
    l.foldl (fun acc c => min acc c.1) a = a := by
  induction l with
  | nil => rfl
  | cons p t ih =>
      simp only [List.foldl_cons, h p (List.mem_cons_self p t), min_self]
      exact ih fun x hx => h x (List.mem_cons_of_mem p hx)

theorem foldl_max_fst (l : List Pt) (a : ℚ) (h : ∀ p ∈ l, p.1 = a) :
    l.foldl (fun acc c => max acc c.1) a = a := by
  induction l with
  | nil => rfl
  | cons p t ih =>
      simp only [List.foldl_cons, h p (List.mem_cons_self p t), max_self]
      exact ih fun x hx => h x (List.mem_cons_of_mem p hx)

theorem bounds_const {q : Pt} {coords : List Pt} (hne : coords ≠ [])
    (hall : ∀ p ∈ coords, p = q) :
    getBoundsFromCoordinates coords = ⟨⟨q.2, q.1⟩, ⟨q.2, q.1⟩, ⟨q.2, q.1⟩⟩ := by
  obtain ⟨c, t, rfl⟩ : ∃ c t, coords = c :: t := by
    cases coords with
    | nil => exact absurd rfl hne
    | cons c t => exact ⟨c, t, rfl⟩
  have hc : c = q := hall c (List.mem_cons_self c t)
  subst hc
  have h2 : ∀ p ∈ c :: t, p.2 = c.2 := fun p hp => by rw [hall p hp]
  have h1 : ∀ p ∈ c :: t, p.1 = c.1 := fun p hp => by rw [hall p hp]
  simp only [getBoundsFromCoordinates, List.headD_cons,
    foldl_min_snd _ _ h2, foldl_max_snd _ _ h2,
    foldl_min_fst _ _ h1, foldl_max_fst _ _ h1]
  have e2 : (c.2 + c.2) / 2 = c.2 := by ring
  have e1 : (c.1 + c.1) / 2 = c.1 := by ring
  rw [e1, e2]

/-- Fixture: a four-point ring whose points are all equal. -/
def degenerateRing : List Pt := [(5,5),(5,5),(5,5),(5,5)]

/-- Counterexample to C4: for an all-equal ring the cell counts are NOT
forced to at least 1 — both are 0 (`Math.ceil(0) = 0`, there is no
`max(1, _)` in the source), so the partitioner produces zero candidate
cells, not exactly one. -/
theorem degenerate_one_cell_cex :
    latCellCount 1 (getBoundsFromCoordinates degenerateRing) = 0 ∧
    lngCellCount cosOne 1 (getBoundsFromCoordinates degenerateRing) = 0 ∧
    candidateCells cosOne 1 degenerateRing = [] ∧
    generateFieldGridMain cosOne 1 degenerateRing = some [] := by
  refine ⟨?_, ?_, ?_, ?_⟩ <;>
    simp [latCellCount, lngCellCount, candidateCells, generateFieldGridMain,
      getBoundsFromCoordinates, degenerateRing, latDegreePerMeter,
      lngDegreePerMeter, cosOne]

/-- C4 as amended: for a Ring whose points are all equal, the zero-width
spans give `rowCount = colCount = 0`, the candidate grid is empty, and
both generators return an empty included set (no point-in-polygon test is
ever reached). -/
theorem degenerate_ring_amended
    (cosdeg : ℚ → ℚ) (gm : ℚ) (q : Pt) (coords : List Pt)
    (hne : coords ≠ []) (hall : ∀ p ∈ coords, p = q) :
    latCellCount gm (getBoundsFromCoordinates coords) = 0 ∧
    lngCellCount cosdeg gm (getBoundsFromCoordinates coords) = 0 ∧
    candidateCells cosdeg gm coords = [] ∧
    generateFieldGridMain cosdeg gm coords = some [] ∧
    generateFieldGridMobile cosdeg gm coords = some [] := by
  have hb := bounds_const hne hall
  have hlat : latCellCount gm (getBoundsFromCoordinates coords) = 0 := by
    simp [latCellCount, hb]
  have hlng : lngCellCount cosdeg gm (getBoundsFromCoordinates coords) = 0 := by
    simp [lngCellCount, hb]
  have hcand : candidateCells cosdeg gm coords = [] := by
    simp [candidateCells, hlat]
  obtain ⟨c, t, rfl⟩ : ∃ c t, coords = c :: t := by
    cases coords with
    | nil => exact absurd rfl hne
    | cons c t => exact ⟨c, t, rfl⟩
  refine ⟨hlat, hlng, hcand, ?_, ?_⟩ <;>
    simp [generateFieldGridMain, generateFieldGridMobile, hcand]

/-- Closed instance of `degenerate_ring_amended` at the all-equal ring. -/
theorem degenerate_ring_amended_witness :
    latCellCount 1 (getBoundsFromCoordinates degenerateRing) = 0 ∧
    lngCellCount cosOne 1 (getBoundsFromCoordinates degenerateRing) = 0 ∧
    candidateCells cosOne 1 degenerateRing = [] ∧
    generateFieldGridMain cosOne 1 degenerateRing = some [] ∧
    generateFieldGridMobile cosOne 1 degenerateRing = some [] :=
  degenerate_ring_amended cosOne 1 (5,5) degenerateRing
    (by simp [degenerateRing])
    (by intro p hp; simp [degenerateRing] at hp; exact hp)

/-! Claim C7: malformed telemetry. -/

/-- Counterexample to C7: a non-numeric reading for known identity 1 is
styled exactly like a healthy `ok` reading (`status` stays `'ok'` because
the thresholds run only under `!isNaN(moisture)`), and differently from
the no-entry "no data" default — so malformed readings are NOT classified
as the "no data" state. -/
theorem malformed_telemetry_cex :
    updateGridStylesFromMapping
        (ingestGridDataFromRTDB [((1:ℤ), (none : Option ℚ))])
        [((1:ℤ), initialCellStyle)] =
      updateGridStylesFromMapping
        (ingestGridDataFromRTDB [((1:ℤ), some (50:ℚ))])
        [((1:ℤ), initialCellStyle)] ∧
    updateGridStylesFromMapping
        (ingestGridDataFromRTDB [((1:ℤ), (none : Option ℚ))])
        [((1:ℤ), initialCellStyle)] ≠
      updateGridStylesFromMapping [] [((1:ℤ), initialCellStyle)] := by
  constructor <;>
    norm_num [updateGridStylesFromMapping, ingestGridDataFromRTDB,
      lookupReading, statusForMoisture, patchForReading, setStyle,
      initialCellStyle, List.find?]

theorem find?_ingest (s : List (ℤ × Option ℚ)) (k : ℤ) :
    (ingestGridDataFromRTDB s).find? (fun e => e.1 == k) =
      (s.find? (fun e => e.1 == k)).map
        (fun e => (e.1, ⟨statusForMoisture e.2, e.2⟩)) := by
  induction s with
  | nil => rfl
  | cons a t ih =>
      have hcons : ingestGridDataFromRTDB (a :: t) =
          (a.1, ⟨statusForMoisture a.2, a.2⟩) :: ingestGridDataFromRTDB t := by
        simp [ingestGridDataFromRTDB]
      rw [hcons]
      cases h : (a.1 == k) with
      | true => simp [List.find?_cons, h]
      | false => simp [List.find?_cons, h, ih]

/-- C7 as amended: a non-numeric (NaN) reading for a known identity is
ingested with status `ok` (and no numeric value), not a "no data" state;
only an identity with no telemetry entry at all receives the distinct
"no data" default styling, which differs from every `ok` styling. -/
theorem malformed_telemetry_amended :
    (∀ (snapshot : List (ℤ × Option ℚ)) (k : ℤ) (e : ℤ × Option ℚ),
       snapshot.find? (fun x => x.1 == k) = some e → e.2 = none →
       lookupReading (ingestGridDataFromRTDB snapshot) k =
         some ⟨CellStatus.ok, none⟩) ∧
    (∀ (mapping : List (ℤ × CellReading)) (cells : List (ℤ × LayerStyle))
       (k : ℤ) (s : LayerStyle),
       lookupReading mapping k = none → (k, s) ∈ cells →
       (k, setStyle s (patchForReading none)) ∈
         updateGridStylesFromMapping mapping cells) ∧
    (∀ s : LayerStyle,
       setStyle s (patchForReading none) ≠
         setStyle s (patchForReading (some ⟨CellStatus.ok, none⟩))) := by
  refine ⟨?_, ?_, ?_⟩
  · intro snapshot k e hfind hnone
    rw [lookupReading, find?_ingest, hfind]
    simp [hnone, statusForMoisture]
  · intro mapping cells k s hlook hmem
    have := List.mem_map_of_mem
      (fun cell : ℤ × LayerStyle =>
        (cell.1, setStyle cell.2
          (patchForReading (lookupReading mapping cell.1)))) hmem
    simpa [updateGridStylesFromMapping, hlook] using this
  · intro s h
    have := congrArg LayerStyle.fillOpacity h
    norm_num [setStyle, patchForReading] at this

/-- Closed instance of `malformed_telemetry_amended`. -/
theorem malformed_telemetry_amended_witness :
    lookupReading (ingestGridDataFromRTDB [((1:ℤ), (none : Option ℚ))]) 1 =
      some ⟨CellStatus.ok, none⟩ ∧
    ((1:ℤ), setStyle initialCellStyle (patchForReading none)) ∈
      updateGridStylesFromMapping [] [((1:ℤ), initialCellStyle)] ∧
    setStyle initialCellStyle (patchForReading none) ≠
      setStyle initialCellStyle (patchForReading (some ⟨CellStatus.ok, none⟩)) :=
  ⟨malformed_telemetry_amended.1 [((1:ℤ), none)] 1 ((1:ℤ), none)
      (by simp [List.find?]) rfl,
   malformed_telemetry_amended.2.1 [] [((1:ℤ), initialCellStyle)] 1
      initialCellStyle rfl (by simp),
   malformed_telemetry_amended.2.2 initialCellStyle⟩

/-! Claim C10: totality of the ray-casting loop. -/

/-- Instrumented crossing test: evaluates exactly the expressions of the
source crossing condition, but signals `none` if the division
`(y - yi) / (yj - yi)` would divide by zero; the division sits in the
second operand of `&&`, so it is reached only when the straddle guard
already holds. -/
def edgeCrossChecked (x y xi yi xj yj : ℚ) : Option Bool :=
  match decide (yi > y) != decide (yj > y) with
  | false => some false
  | true =>
      match yj - yi == 0 with
      | true => none
      | false => some (decide (x < (xj - xi) * (y - yi) / (yj - yi) + xi))

def pipGoChecked (x y : ℚ) : List Pt → Pt → Bool → Option Bool
  | [], _, inside => some inside
  | cur :: rest, prev, inside =>
      match edgeCrossChecked x y cur.1 cur.2 prev.1 prev.2 with
      | none => none
      | some b => pipGoChecked x y rest cur (if b then !inside else inside)

def isPointInPolygonChecked (point : Pt) (polygon : List Pt) : Option Bool :=
  match polygon.getLast? with
  | none => some false
  | some last => pipGoChecked point.1 point.2 polygon last false

theorem edgeCrossChecked_eq (x y xi yi xj yj : ℚ) :
    edgeCrossChecked x y xi yi xj yj = some (edgeCross x y xi yi xj yj) := by
  unfold edgeCrossChecked edgeCross
  cases h1 : (decide (yi > y) != decide (yj > y)) with
  | false => simp [h1]
  | true =>
      cases h2 : (yj - yi == 0) with
      | true =>
          exfalso
          have hy : yj = yi := by
            have := beq_iff_eq.mp h2
            linarith
          rw [hy] at h1
          simp at h1
      | false => simp [h1]

theorem pipGoChecked_eq (x y : ℚ) (l : List Pt) :
    ∀ (prev : Pt) (b : Bool),
      pipGoChecked x y l prev b = some (pipGo x y l prev b) := by
  induction l with
  | nil => intro prev b; rfl
  | cons cur rest ih =>
      intro prev b
      rw [pipGoChecked, pipGo, edgeCrossChecked_eq]
      exact ih cur _

/-- C10: the ray-casting test is total — it returns `false` on the empty
vertex list, and the instrumented variant (which flags any division by
`yj - yi = 0`) never signals: the straddle guard `(yi > y) !== (yj > y)`
guarantees `yi ≠ yj` whenever the division is evaluated. -/
theorem ray_cast_total :
    (∀ point : Pt, isPointInPolygon point ([] : List Pt) = false) ∧
    (∀ (point : Pt) (polygon : List Pt),
       isPointInPolygonChecked point polygon =
         some (isPointInPolygon point polygon)) := by
  constructor
  · intro point; rfl
  · intro point polygon
    unfold isPointInPolygonChecked isPointInPolygon
    cases polygon.getLast? with
    | none => rfl
    | some last => exact pipGoChecked_eq _ _ _ _ _

/-! Claim C3: membership classification. -/

/-- Fixture cell for the C3 counterexample: corner `(1/2, 1/2)` lies in
the unit square but the cell center `(3/2, 3/2)` does not. -/
def wideCell : GridCell := ⟨1, 0, 0, 1/2, 1/2, 5/2, 5/2⟩

/-- Counterexample to C3: `main.js` includes a cell (via
`isPolygonWithinField`, which ray-casts the cell's corner points) whose
geometric center fails the ray-cast — so inclusion there is not decided
by the single center test the claim describes. -/
theorem membership_not_single_center_cex :
    mainCellIncluded unitSquareRing wideCell = true ∧
    isPointInPolygon
        ((wideCell.lng1 + wideCell.lng2) / 2,
         (wideCell.lat1 + wideCell.lat2) / 2) unitSquareRing = false := by
  constructor <;>
    norm_num [mainCellIncluded, isPolygonWithinField, cellRing, wideCell,
      isPointInPolygon, pipGo, edgeCross, getPolygonCenter, unitSquareRing]

theorem mobilePipGo_eq (x y : ℚ) (l : List (ℚ × ℚ)) :
    ∀ (prev : ℚ × ℚ) (b : Bool),
      mobilePipGo x y l prev b =
        pipGo x y (l.map Prod.swap) (Prod.swap prev) b := by
  induction l with
  | nil => intro prev b; rfl
  | cons cur rest ih =>
      intro prev b
      rw [List.map_cons, mobilePipGo, pipGo]
      exact ih cur _

theorem mobileIsPointInPolygon_eq (pt : ℚ × ℚ) (poly : List (ℚ × ℚ)) :
    mobileIsPointInPolygon pt poly =
      isPointInPolygon (pt.2, pt.1) (poly.map Prod.swap) := by
  unfold mobileIsPointInPolygon isPointInPolygon
  rw [List.getLast?_map]
  cases poly.getLast? with
  | none => rfl
  | some last => exact mobilePipGo_eq _ _ _ _ _

/-- C3 as amended: in `mobile.js` a cell's inclusion is decided by
ray-casting the cell's geometric center against the Ring; in `main.js` it
is decided by ray-casting the cell's corner points (any hit includes the
cell) and, failing that, testing whether the field's vertex-average point
lies in the cell ring; in both files, cells failing the test are dropped
entirely from the output set. -/
theorem membership_classification_amended :
    (∀ (coords : List Pt) (c : GridCell),
       mobileCellIncluded coords c =
         isPointInPolygon
           ((c.lng1 + c.lng2) / 2, (c.lat1 + c.lat2) / 2) coords) ∧
    (∀ (coords : List Pt) (c : GridCell),
       mainCellIncluded coords c =
         (((cellRing c).any fun corner => isPointInPolygon corner coords) ||
           isPointInPolygon (getPolygonCenter coords) (cellRing c))) ∧
    (∀ (cosdeg : ℚ → ℚ) (gm : ℚ) (coords : List Pt)
       (cells : List GridCell) (c : GridCell),
       (generateFieldGridMain cosdeg gm coords = some cells →
         (c ∈ cells ↔
           c ∈ candidateCells cosdeg gm coords ∧
             mainCellIncluded coords c = true)) ∧
       (generateFieldGridMobile cosdeg gm coords = some cells →
         (c ∈ cells ↔
           c ∈ candidateCells cosdeg gm coords ∧
             mobileCellIncluded coords c = true))) := by
  refine ⟨?_, ?_, ?_⟩
  · intro coords c
    rw [mobileCellIncluded, mobileIsPointInPolygon_eq]
    have hmap : (coords.map fun p => (p.2, p.1)).map Prod.swap = coords := by
      simp [List.map_map, Function.comp_def, Prod.swap_prod_mk]
    rw [hmap]
  · intro coords c
    rfl
  · intro cosdeg gm coords cells c
    constructor <;>
    · intro he
      cases coords with
      | nil => simp [generateFieldGridMain, generateFieldGridMobile] at he
      | cons a t =>
          simp only [generateFieldGridMain, generateFieldGridMobile,
            Option.some_inj] at he
          subst he
          simp [List.mem_filter]

/-- Closed instance of `membership_classification_amended` at the
one-cell unit-square grid. -/
theorem membership_classification_amended_witness :
    (mobileCellIncluded unitSquareRing sqCell =
       isPointInPolygon
         ((sqCell.lng1 + sqCell.lng2) / 2, (sqCell.lat1 + sqCell.lat2) / 2)
         unitSquareRing) ∧
    (sqCell ∈ [sqCell] ↔
      sqCell ∈ candidateCells cosOne 111320 unitSquareRing ∧
        mainCellIncluded unitSquareRing sqCell = true) :=
  ⟨membership_classification_amended.1 unitSquareRing sqCell,
   (membership_classification_amended.2.2 cosOne 111320 unitSquareRing
      [sqCell] sqCell).1 gen_sq⟩

/-! Claim C9: winding-order agnosticism of the ray-casting test.  The
loop result is the xor-fold of the per-edge crossing bits; reversing the
ring permutes the edge multiset (each edge endpoint-swapped), the
crossing bit is endpoint-symmetric, and xor is commutative. -/

def xorFold (l : List Bool) : Bool := l.foldl Bool.xor false

theorem foldl_xor (l : List Bool) : ∀ b : Bool,
    l.foldl Bool.xor b = Bool.xor b (xorFold l) := by
  induction l with
  | nil => intro b; simp [xorFold]
  | cons a t ih =>
      intro b
      show List.foldl Bool.xor (Bool.xor b a) t =
        Bool.xor b (List.foldl Bool.xor (Bool.xor false a) t)
      rw [Bool.false_xor, ih (Bool.xor b a), ih a]
      exact Bool.xor_assoc b a (xorFold t)

theorem xorFold_cons (a : Bool) (l : List Bool) :
    xorFold (a :: l) = Bool.xor a (xorFold l) := by
  show List.foldl Bool.xor (Bool.xor false a) l = _
  rw [Bool.false_xor, foldl_xor l a]

theorem xorFold_reverse (l : List Bool) : xorFold l.reverse = xorFold l := by
  induction l with
  | nil => rfl
  | cons a t ih =>
      rw [List.reverse_cons, xorFold, List.foldl_append]
      show Bool.xor (List.foldl Bool.xor false t.reverse) a = _
      rw [show List.foldl Bool.xor false t.reverse = xorFold t.reverse from rfl,
        ih, xorFold_cons]
      exact Bool.xor_comm _ _

/-- Crossing bit of one (current, previous) vertex pair. -/
def crossVal (x y : ℚ) (e : Pt × Pt) : Bool :=
  edgeCross x y e.1.1 e.1.2 e.2.1 e.2.2

/-- The crossing condition is symmetric in the two edge endpoints: when
the straddle guard holds the two x-intersection expressions denote the
same rational (the edge's intersection with the horizontal through `y`),
and when it fails both sides are `false`. -/
theorem edgeCross_symm (x y xi yi xj yj : ℚ) :
    edgeCross x y xi yi xj yj = edgeCross x y xj yj xi yi := by
  unfold edgeCross
  by_cases h1 : yi > y <;> by_cases h2 : yj > y
  · simp [h1, h2]
  · have hne : yj - yi ≠ 0 := by
      intro h0
      exact h2 (by linarith)
    have hne2 : yi - yj ≠ 0 := by
      intro h0
      exact h2 (by linarith)
    have key : (xj - xi) * (y - yi) / (yj - yi) + xi =
        (xi - xj) * (y - yj) / (yi - yj) + xj := by
      field_simp
      ring
    simp [h1, h2, key]
  · have hne : yj - yi ≠ 0 := by
      intro h0
      exact h1 (by linarith)
    have hne2 : yi - yj ≠ 0 := by
      intro h0
      exact h1 (by linarith)
    have key : (xj - xi) * (y - yi) / (yj - yi) + xi =
        (xi - xj) * (y - yj) / (yi - yj) + xj := by
      field_simp
      ring
    simp [h1, h2, key]
  · simp [h1, h2]

theorem crossVal_swap (x y : ℚ) (e : Pt × Pt) :
    crossVal x y e.swap = crossVal x y e := by
  cases e with
  | mk u v => exact edgeCross_symm x y v.1 v.2 u.1 u.2

theorem pipGo_eq_xorFold (x y : ℚ) (l : List Pt) :
    ∀ (prev : Pt) (b : Bool),
      pipGo x y l prev b =
        Bool.xor b (xorFold ((l.zip (prev :: l)).map (crossVal x y))) := by
  induction l with
  | nil => intro prev b; simp [pipGo, xorFold]
  | cons cur rest ih =>
      intro prev b
      rw [pipGo, ih cur]
      have hif : (if edgeCross x y cur.1 cur.2 prev.1 prev.2
            then !b else b) = Bool.xor b (crossVal x y (cur, prev)) := by
        cases h : edgeCross x y cur.1 cur.2 prev.1 prev.2 <;>
          simp [crossVal, h]
      rw [hif, List.zip_cons_cons, List.map_cons, xorFold_cons]
      exact Bool.xor_assoc _ _ _

/-- Pairing a list with its cons-shifted self gives the endpoint-swapped
successive pairs. -/
theorem zip_tail_cons {α : Type} (t : List α) : ∀ a : α,
    t.zip (a :: t) = ((a :: t).zip t).map Prod.swap := by
  induction t with
  | nil => intro a; rfl
  | cons b t2 ih =>
      intro a
      rw [List.zip_cons_cons, List.zip_cons_cons, List.map_cons, ih b,
        Prod.swap_prod_mk]

/-- Successive pairs of the reversed list are the reversed
endpoint-swapped successive pairs. -/
theorem zip_tail_reverse {α : Type} (l : List α) :
    l.reverse.zip l.reverse.tail = ((l.zip l.tail).map Prod.swap).reverse := by
  apply List.ext_getElem
  · simp only [List.length_zip, List.length_tail, List.length_reverse,
      List.length_map]
  · intro i h1 h2
    have hi : i < l.length - 1 := by
      simp only [List.length_zip, List.length_reverse, List.length_tail] at h1
      omega
    simp only [List.getElem_zip, List.getElem_reverse, List.getElem_tail,
      List.getElem_map, Prod.swap_prod_mk, List.length_zip,
      List.length_tail, List.length_map, Prod.mk.injEq]
    constructor <;> congr 1 <;> omega

theorem map_crossVal_swap (x y : ℚ) (l : List (Pt × Pt)) :
    (l.map Prod.swap).map (crossVal x y) = l.map (crossVal x y) := by
  rw [List.map_map]
  exact List.map_congr_left fun e _ => crossVal_swap x y e

theorem pip_reverse_eq (pt : Pt) (p : List Pt) :
    isPointInPolygon pt p.reverse = isPointInPolygon pt p := by
  cases p with
  | nil => rfl
  | cons a t =>
      have hne : (a :: t) ≠ [] := by simp
      have hlast : (a :: t).getLast? = some ((a :: t).getLast hne) :=
        List.getLast?_eq_getLast _ hne
      obtain ⟨b, u, hbu⟩ : ∃ b u, (a :: t).reverse = b :: u := by
        cases hr : (a :: t).reverse with
        | nil =>
            have := congrArg List.length hr
            simp at this
        | cons b u => exact ⟨b, u, rfl⟩
      have hb : b = (a :: t).getLast hne := by
        have h1 : (a :: t).reverse.head? = some b := by rw [hbu]; rfl
        rw [List.head?_reverse, hlast] at h1
        exact (Option.some_inj.mp h1).symm
      have hlastrev : (a :: t).reverse.getLast? = some a := by
        rw [List.getLast?_reverse]
        rfl
      have hinner : (b :: u).zip u =
          (((a :: t).zip t).map Prod.swap).reverse := by
        have hz := zip_tail_reverse (a :: t)
        rw [hbu] at hz
        simpa using hz
      unfold isPointInPolygon
      rw [hlast, hlastrev]
      have hR : pipGo pt.1 pt.2 (a :: t) ((a :: t).getLast hne) false =
          Bool.xor (crossVal pt.1 pt.2 (a, (a :: t).getLast hne))
            (xorFold (((a :: t).zip t).map (crossVal pt.1 pt.2))) := by
        rw [pipGo_eq_xorFold, List.zip_cons_cons, List.map_cons,
          xorFold_cons, zip_tail_cons, map_crossVal_swap, Bool.false_xor]
      have hLft : pipGo pt.1 pt.2 (a :: t).reverse a false =
          Bool.xor (crossVal pt.1 pt.2 (b, a))
            (xorFold (((a :: t).zip t).map (crossVal pt.1 pt.2))) := by
        rw [hbu, pipGo_eq_xorFold, List.zip_cons_cons, List.map_cons,
          xorFold_cons, zip_tail_cons, map_crossVal_swap, Bool.false_xor,
          hinner, List.map_reverse, xorFold_reverse, map_crossVal_swap]
      show pipGo pt.1 pt.2 (a :: t).reverse a false =
        pipGo pt.1 pt.2 (a :: t) ((a :: t).getLast hne) false
      rw [hLft, hR]
      congr 1
      rw [hb]
      exact crossVal_swap pt.1 pt.2 (a, (a :: t).getLast hne)

/-- C9: the ray-casting point-in-polygon test returns the same boolean on
the reversed vertex sequence (clockwise versus counter-clockwise), for
both the `main.js` and the `mobile.js` copy — no winding normalization is
needed. -/
theorem winding_order_agnostic :
    (∀ (point : Pt) (polygon : List Pt),
       isPointInPolygon point polygon.reverse =
         isPointInPolygon point polygon) ∧
    (∀ (point : ℚ × ℚ) (polygon : List (ℚ × ℚ)),
       mobileIsPointInPolygon point polygon.reverse =
         mobileIsPointInPolygon point polygon) := by
  constructor
  · exact pip_reverse_eq
  · intro point polygon
    rw [mobileIsPointInPolygon_eq, mobileIsPointInPolygon_eq,
      List.map_reverse, pip_reverse_eq]

/-! Claim C5: the 100 m by 50 m rectangle scenario. -/

/-- Closed axis-aligned rectangle ring in `[lng, lat]` order with
south-west corner `(lng0, lat0)`, width `w` and height `h` in degrees. -/
def rectRing (lng0 lat0 w h : ℚ) : List Pt :=
  [(lng0, lat0), (lng0 + w, lat0), (lng0 + w, lat0 + h),
   (lng0, lat0 + h), (lng0, lat0)]

theorem bounds_rectRing (lng0 lat0 w h : ℚ) (hw : 0 ≤ w) (hh : 0 ≤ h) :
    getBoundsFromCoordinates (rectRing lng0 lat0 w h) =
      ⟨⟨lat0, lng0⟩, ⟨lat0 + h, lng0 + w⟩,
       ⟨lat0 + h / 2, lng0 + w / 2⟩⟩ := by
  have e1 : min lat0 (lat0 + h) = lat0 := min_eq_left (by linarith)
  have e2 : max lat0 (lat0 + h) = lat0 + h := max_eq_right (by linarith)
  have e2a : max (lat0 + h) lat0 = lat0 + h := max_eq_left (by linarith)
  have e3 : min lng0 (lng0 + w) = lng0 := min_eq_left (by linarith)
  have e4 : max lng0 (lng0 + w) = lng0 + w := max_eq_right (by linarith)
  have e4a : max (lng0 + w) lng0 = lng0 + w := max_eq_left (by linarith)
  have c1 : (lat0 + (lat0 + h)) / 2 = lat0 + h / 2 := by ring
  have c2 : (lng0 + (lng0 + w)) / 2 = lng0 + w / 2 := by ring
  simp only [getBoundsFromCoordinates, rectRing, List.headD_cons,
    List.foldl_cons, List.foldl_nil, min_self, max_self,
    e1, e2, e2a, e3, e4, e4a, min_self, max_self]
  rw [c1, c2]

/-- A point strictly inside an axis-aligned rectangle ring passes the
ray-cast: exactly the right edge is crossed. -/
theorem pip_rect_interior (lng0 lat0 w h x y : ℚ)
    (hx1 : lng0 < x) (hx2 : x < lng0 + w)
    (hy1 : lat0 < y) (hy2 : y < lat0 + h) :
    isPointInPolygon (x, y) (rectRing lng0 lat0 w h) = true := by
  have d1 : decide (lat0 > y) = false := decide_eq_false (by linarith)
  have d2 : decide (lat0 + h > y) = true := decide_eq_true (by linarith)
  have c12 : ∀ xi xj yy : ℚ, edgeCross x y xi yy xj yy = false := by
    intro xi xj yy
    unfold edgeCross
    simp
  have c3 : edgeCross x y (lng0 + w) (lat0 + h) (lng0 + w) lat0 = true := by
    unfold edgeCross
    rw [d1, d2]
    have e : (lng0 + w - (lng0 + w)) * (y - (lat0 + h)) /
        (lat0 - (lat0 + h)) + (lng0 + w) = lng0 + w := by
      ring
    rw [e]
    simp [hx2]
  have c5 : edgeCross x y lng0 lat0 lng0 (lat0 + h) = false := by
    unfold edgeCross
    rw [d1, d2]
    have e : (lng0 - lng0) * (y - lat0) / (lat0 + h - lat0) + lng0 = lng0 := by
      ring
    rw [e]
    simp [not_lt.mpr (le_of_lt hx1)]
  show isPointInPolygon (x, y)
    [(lng0, lat0), (lng0 + w, lat0), (lng0 + w, lat0 + h),
     (lng0, lat0 + h), (lng0, lat0)] = true
  unfold isPointInPolygon
  show pipGo x y _ (lng0, lat0) false = true
  simp only [pipGo, c12, c3, c5]
  simp

/-- The spec's end-to-end ring: a 100 m by 50 m rectangle whose extents
are converted to degrees at reference latitude 18.52 using the scale
factors of `generateFieldGrid`; `cR` stands for the cosine-oracle value
at 18.52 degrees. -/
def c5Ring (cR lng0 : ℚ) : List Pt :=
  rectRing lng0 (1852/100) (100 / (111320 * cR)) (50 / 111320)

theorem c5_bounds (cR lng0 : ℚ) (hcRpos : 0 < cR) :
    getBoundsFromCoordinates (c5Ring cR lng0) =
      ⟨⟨1852/100, lng0⟩,
       ⟨1852/100 + 50/111320, lng0 + 100/(111320*cR)⟩,
       ⟨1852/100 + (50/111320)/2, lng0 + (100/(111320*cR))/2⟩⟩ := by
  unfold c5Ring
  exact bounds_rectRing _ _ _ _ (by positivity) (by norm_num)

theorem c5_latCount (cR lng0 : ℚ) (hcRpos : 0 < cR) :
    latCellCount 10 (getBoundsFromCoordinates (c5Ring cR lng0)) = 5 := by
  rw [c5_bounds cR lng0 hcRpos]
  show (⌈((1852/100 + 50/111320 : ℚ) - 1852/100) / (10 * (1/111320))⌉ : ℤ) = 5
  have e : ((1852/100 + 50/111320 : ℚ) - 1852/100) / (10 * (1/111320)) = 5 := by
    norm_num
  rw [e]
  norm_num

theorem c5_lngCount (cosdeg : ℚ → ℚ) (cR cC lng0 : ℚ)
    (hcC : cosdeg (1852/100 + 25/111320) = cC)
    (h1 : 0 < cC) (h2 : cC ≤ cR) (h3 : 9 * cR < 10 * cC) :
    lngCellCount cosdeg 10 (getBoundsFromCoordinates (c5Ring cR lng0)) = 10 := by
  have hcRpos : 0 < cR := lt_of_lt_of_le h1 h2
  rw [c5_bounds cR lng0 hcRpos]
  show (⌈((lng0 + 100/(111320*cR)) - lng0) /
      (10 * (1 / (111320 * cosdeg (1852/100 + (50/111320)/2))))⌉ : ℤ) = 10
  have hcen : (1852/100 : ℚ) + (50/111320)/2 = 1852/100 + 25/111320 := by
    norm_num
  rw [hcen, hcC]
  have hratio : ((lng0 + 100/(111320*cR)) - lng0) /
      (10 * (1 / (111320 * cC))) = 10 * cC / cR := by
    field_simp
    ring
  rw [hratio, Int.ceil_eq_iff]
  constructor
  · push_cast
    rw [show (10:ℚ) * cC / cR = (10 * cC) / cR from rfl, lt_div_iff₀ hcRpos]
    linarith
  · push_cast
    rw [div_le_iff₀ hcRpos]
    linarith

theorem c5_corner_inside (cR cC lng0 kq mq : ℚ)
    (h1 : 0 < cC) (h2 : cC ≤ cR) (h3 : 9 * cR < 10 * cC)
    (hk1 : 1 ≤ kq) (hk4 : kq ≤ 4) (hm1 : 1 ≤ mq) (hm9 : mq ≤ 9) :
    isPointInPolygon
      (lng0 + mq * (10 * (1 / (111320 * cC))),
       1852/100 + kq * (10 * (1 / 111320)))
      (c5Ring cR lng0) = true := by
  have hcRpos : 0 < cR := lt_of_lt_of_le h1 h2
  unfold c5Ring
  apply pip_rect_interior
  · have hm0 : (0:ℚ) < mq := by linarith
    have : (0:ℚ) < 10 * (1 / (111320 * cC)) := by positivity
    nlinarith
  · have key : mq * (10 * (1 / (111320 * cC))) < 100 / (111320 * cR) := by
      rw [show mq * (10 * (1 / (111320 * cC))) =
        (10 * mq) / (111320 * cC) from by ring]
      rw [div_lt_div_iff₀ (by positivity) (by positivity)]
      have h9 : mq * cR ≤ 9 * cR := mul_le_mul_of_nonneg_right hm9 hcRpos.le
      nlinarith
    linarith
  · have : (0:ℚ) < 10 * (1 / 111320) := by norm_num
    nlinarith
  · nlinarith

theorem c5_included (cosdeg : ℚ → ℚ) (cR cC lng0 : ℚ)
    (hcC : cosdeg (1852/100 + 25/111320) = cC)
    (h1 : 0 < cC) (h2 : cC ≤ cR) (h3 : 9 * cR < 10 * cC) :
    ∀ c ∈ candidateCells cosdeg 10 (c5Ring cR lng0),
      mainCellIncluded (c5Ring cR lng0) c = true := by
  have hcRpos : 0 < cR := lt_of_lt_of_le h1 h2
  have hb := c5_bounds cR lng0 hcRpos
  have hminlat :
      (getBoundsFromCoordinates (c5Ring cR lng0)).min.lat = 1852/100 := by
    rw [hb]
  have hminlng :
      (getBoundsFromCoordinates (c5Ring cR lng0)).min.lng = lng0 := by
    rw [hb]
  have hstep : 10 * lngDegreePerMeter cosdeg
      (getBoundsFromCoordinates (c5Ring cR lng0)).center.lat =
      10 * (1 / (111320 * cC)) := by
    rw [hb]
    show 10 * lngDegreePerMeter cosdeg (1852/100 + (50/111320)/2) = _
    rw [show (1852/100 : ℚ) + (50/111320)/2 = 1852/100 + 25/111320 from by
      norm_num]
    simp only [lngDegreePerMeter, hcC]
  intro c hc
  obtain ⟨i, j, hi, hj, rfl⟩ := mem_candidateCells hc
  rw [c5_latCount cR lng0 hcRpos] at hi
  rw [c5_lngCount cosdeg cR cC lng0 hcC h1 h2 h3] at hj
  norm_num at hi hj
  have hic : (i:ℚ) ≤ 4 := by exact_mod_cast Nat.lt_succ_iff.mp hi
  have hjc : (j:ℚ) ≤ 9 := by exact_mod_cast Nat.lt_succ_iff.mp hj
  have hinn : (0:ℚ) ≤ (i:ℚ) := Nat.cast_nonneg i
  have hjnn : (0:ℚ) ≤ (j:ℚ) := Nat.cast_nonneg j
  rw [mainCellIncluded]
  simp only [isPolygonWithinField, cellRing, candidateCell, hminlat, hminlng,
    hstep, latDegreePerMeter]
  rw [Bool.or_eq_true]
  left
  rw [List.any_eq_true]
  by_cases hi0 : i = 0 <;> by_cases hj0 : j = 0
  · refine ⟨(lng0 + ((j:ℚ) + 1) * (10 * (1 / (111320 * cC))),
        1852/100 + ((i:ℚ) + 1) * (10 * (1 / 111320))), ?_, ?_⟩
    · exact List.mem_cons_of_mem _
        (List.mem_cons_of_mem _ (List.mem_cons_self _ _))
    · exact c5_corner_inside cR cC lng0 _ _ h1 h2 h3
        (by linarith) (by simp [hi0]) (by linarith) (by simp [hj0])
  · refine ⟨(lng0 + (j:ℚ) * (10 * (1 / (111320 * cC))),
        1852/100 + ((i:ℚ) + 1) * (10 * (1 / 111320))), ?_, ?_⟩
    · exact List.mem_cons_of_mem _ (List.mem_cons_self _ _)
    · have hj1 : (1:ℚ) ≤ (j:ℚ) := by
        exact_mod_cast Nat.one_le_iff_ne_zero.mpr hj0
      exact c5_corner_inside cR cC lng0 _ _ h1 h2 h3
        (by linarith) (by simp [hi0]) hj1 hjc
  · refine ⟨(lng0 + ((j:ℚ) + 1) * (10 * (1 / (111320 * cC))),
        1852/100 + (i:ℚ) * (10 * (1 / 111320))), ?_, ?_⟩
    · exact List.mem_cons_of_mem _ (List.mem_cons_of_mem _
        (List.mem_cons_of_mem _ (List.mem_cons_self _ _)))
    · have hi1 : (1:ℚ) ≤ (i:ℚ) := by
        exact_mod_cast Nat.one_le_iff_ne_zero.mpr hi0
      exact c5_corner_inside cR cC lng0 _ _ h1 h2 h3
        hi1 hic (by linarith) (by simp [hj0])
  · refine ⟨(lng0 + (j:ℚ) * (10 * (1 / (111320 * cC))),
        1852/100 + (i:ℚ) * (10 * (1 / 111320))), ?_, ?_⟩
    · exact List.mem_cons_self _ _
    · have hi1 : (1:ℚ) ≤ (i:ℚ) := by
        exact_mod_cast Nat.one_le_iff_ne_zero.mpr hi0
      have hj1 : (1:ℚ) ≤ (j:ℚ) := by
        exact_mod_cast Nat.one_le_iff_ne_zero.mpr hj0
      exact c5_corner_inside cR cC lng0 _ _ h1 h2 h3 hi1 hic hj1 hjc

theorem length_candidateCells (cosdeg : ℚ → ℚ) (gm : ℚ) (coords : List Pt) :
    (candidateCells cosdeg gm coords).length =
      (latCellCount gm (getBoundsFromCoordinates coords)).toNat *
        (lngCellCount cosdeg gm (getBoundsFromCoordinates coords)).toNat := by
  simp [candidateCells, List.length_flatMap, Function.comp_def,
    List.map_const', List.sum_replicate, smul_eq_mul]

theorem c5_gen (cosdeg : ℚ → ℚ) (cR cC lng0 : ℚ)
    (hcC : cosdeg (1852/100 + 25/111320) = cC)
    (h1 : 0 < cC) (h2 : cC ≤ cR) (h3 : 9 * cR < 10 * cC) :
    generateFieldGridMain cosdeg 10 (c5Ring cR lng0) =
      some (candidateCells cosdeg 10 (c5Ring cR lng0)) := by
  have hcons : generateFieldGridMain cosdeg 10 (c5Ring cR lng0) =
      some ((candidateCells cosdeg 10 (c5Ring cR lng0)).filter fun c =>
        mainCellIncluded (c5Ring cR lng0) c) := rfl
  rw [hcons,
    List.filter_eq_self.mpr (c5_included cosdeg cR cC lng0 hcC h1 h2 h3)]

theorem c5_numbers (cosdeg : ℚ → ℚ) (cR cC lng0 : ℚ)
    (hcC : cosdeg (1852/100 + 25/111320) = cC)
    (h1 : 0 < cC) (h2 : cC ≤ cR) (h3 : 9 * cR < 10 * cC) :
    (candidateCells cosdeg 10 (c5Ring cR lng0)).map GridCell.number =
      (List.range 50).map (fun n => (n : ℤ) + 1) := by
  have hcRpos : 0 < cR := lt_of_lt_of_le h1 h2
  simp only [candidateCells]
  rw [c5_latCount cR lng0 hcRpos, c5_lngCount cosdeg cR cC lng0 hcC h1 h2 h3]
  rw [show ((5:ℤ).toNat) = 5 from rfl, show ((10:ℤ).toNat) = 10 from rfl]
  rw [List.map_flatMap]
  simp only [List.map_map, Function.comp_def, candidateCell]
  decide

/-- C5: for the 100 m by 50 m rectangle converted to degrees at latitude
18.52 (`cR` is the cosine oracle at 18.52 degrees, `cC` its value at the
bounding-box center latitude; the hypotheses record that the cosine
decreases slightly but by less than ten percent over the 50 m span, true
of the real cosine), with `cellSizeMeters = 10` the grid has
`rowCount = 5`, `colCount = 10`, 50 candidate cells, all 50 included, and
identities exactly 1..50 in row-major order. -/
theorem end_to_end_rectangle (cosdeg : ℚ → ℚ) (cR cC lng0 : ℚ)
    (hcR : cosdeg (1852/100) = cR)
    (hcC : cosdeg (1852/100 + 25/111320) = cC)
    (h1 : 0 < cC) (h2 : cC ≤ cR) (h3 : 9 * cR < 10 * cC) :
    latCellCount 10 (getBoundsFromCoordinates (c5Ring cR lng0)) = 5 ∧
    lngCellCount cosdeg 10 (getBoundsFromCoordinates (c5Ring cR lng0)) = 10 ∧
    (candidateCells cosdeg 10 (c5Ring cR lng0)).length = 50 ∧
    generateFieldGridMain cosdeg 10 (c5Ring cR lng0) =
      some (candidateCells cosdeg 10 (c5Ring cR lng0)) ∧
    (candidateCells cosdeg 10 (c5Ring cR lng0)).map GridCell.number =
      (List.range 50).map (fun n => (n : ℤ) + 1) := by
  have hcRpos : 0 < cR := lt_of_lt_of_le h1 h2
  refine ⟨c5_latCount cR lng0 hcRpos,
    c5_lngCount cosdeg cR cC lng0 hcC h1 h2 h3, ?_,
    c5_gen cosdeg cR cC lng0 hcC h1 h2 h3,
    c5_numbers cosdeg cR cC lng0 hcC h1 h2 h3⟩
  rw [length_candidateCells, c5_latCount cR lng0 hcRpos,
    c5_lngCount cosdeg cR cC lng0 hcC h1 h2 h3]
  rfl

/-- Cosine oracle fixture for the C5 witness: 0.94823 at exactly 18.52
degrees (close to the true cos 18.52 deg) and 0.94822 elsewhere. -/
def cosdegW : ℚ → ℚ :=
  fun x => if x = 1852/100 then 94823/100000 else 94822/100000

/-- Closed instance of `end_to_end_rectangle` at the concrete cosine
fixture. -/
theorem end_to_end_rectangle_witness :
    latCellCount 10
      (getBoundsFromCoordinates (c5Ring (94823/100000) 0)) = 5 ∧
    lngCellCount cosdegW 10
      (getBoundsFromCoordinates (c5Ring (94823/100000) 0)) = 10 ∧
    (candidateCells cosdegW 10 (c5Ring (94823/100000) 0)).length = 50 ∧
    generateFieldGridMain cosdegW 10 (c5Ring (94823/100000) 0) =
      some (candidateCells cosdegW 10 (c5Ring (94823/100000) 0)) ∧
    (candidateCells cosdegW 10 (c5Ring (94823/100000) 0)).map
        GridCell.number =
      (List.range 50).map (fun n => (n : ℤ) + 1) :=
  end_to_end_rectangle cosdegW (94823/100000) (94822/100000) 0
    (by norm_num [cosdegW]) (by norm_num [cosdegW])
    (by norm_num) (by norm_num) (by norm_num)

end RootAi
